import Mathlib

/-!
Verification of the chess rules engine in `src/types/chess.ts` (the file also
holds the engine logic imported by the UI components).

The TypeScript source is shallowly embedded below.  Conventions:
* TS `number` coordinates become `Int` (pawn/slide arithmetic goes negative
  before the `isValidPosition` bounds guard, exactly as in the source).
* The board `(ChessPiece | null)[][]` becomes `List (List (Option ChessPiece))`;
  `board[r][c]` becomes `cellAt`, which yields `none` outside the stored grid
  (every read in the source is guarded by `isValidPosition` or performed with
  in-range indices, so the two agree on all executed paths).
* `Date.now()` is modelled by the constant `dateNow` (real time is outside the
  engine's semantics; no claim depends on timestamps).
* TS field names `from`/`to` are Lean keywords, so the `Move` record uses
  `fromSq`/`toSq`.
* Arrays are modelled as values except where a claim is about array aliasing:
  for that, a store-passing variant `makeMoveH` models the captured-piece
  arrays as references into an explicit store (see the section on the heap
  model below).
-/

inductive PieceType where
  | pawn | rook | knight | bishop | queen | king
deriving DecidableEq, Repr

inductive PieceColor where
  | white | black
deriving DecidableEq, Repr

inductive GameStatus where
  | active | check | checkmate | stalemate | draw
deriving DecidableEq, Repr

structure ChessPiece where
  type : PieceType
  color : PieceColor
deriving DecidableEq, Repr

structure Position where
  row : Int
  col : Int
deriving DecidableEq, Repr

structure CastlingRights where
  whiteKingSide : Bool
  whiteQueenSide : Bool
  blackKingSide : Bool
  blackQueenSide : Bool
deriving DecidableEq, Repr

structure CapturedPieces where
  white : List ChessPiece
  black : List ChessPiece
deriving DecidableEq, Repr

/-- Move record; `fromSq`/`toSq` embed the source's `from`/`to` fields,
`notationStr` embeds the source's notation-string field. -/
structure Move where
  fromSq : Position
  toSq : Position
  piece : ChessPiece
  capturedPiece : Option ChessPiece
  notationStr : String
  timestamp : Nat
  isCheck : Option Bool
  isCheckmate : Option Bool
  isCastling : Option Bool
  isEnPassant : Option Bool
  promotionPiece : Option PieceType
deriving DecidableEq, Repr

def Board : Type := List (List (Option ChessPiece))

instance : DecidableEq Board := by
  unfold Board
  infer_instance

structure GameState where
  board : Board
  currentPlayer : PieceColor
  status : GameStatus
  moveHistory : List Move
  capturedPieces : CapturedPieces
  castlingRights : CastlingRights
  enPassantTarget : Option Position
  halfMoveClock : Nat
  fullMoveNumber : Nat
deriving DecidableEq

/-- Model of `Date.now()`: a constant, since real time is outside the engine. -/
def dateNow : Nat := 0

/-- Read `board[p.row][p.col]`; `none` outside the stored grid. -/
def cellAt (board : Board) (p : Position) : Option ChessPiece :=
  if 0 ≤ p.row && 0 ≤ p.col then
    (board.getD p.row.toNat []).getD p.col.toNat none
  else none

/-- Write `board[p.row][p.col] = v` (no-op outside the stored grid). -/
def setCell (board : Board) (p : Position) (v : Option ChessPiece) : Board :=
  if 0 ≤ p.row && 0 ≤ p.col then
    board.set p.row.toNat ((board.getD p.row.toNat []).set p.col.toNat v)
  else board

def isValidPosition (pos : Position) : Bool :=
  decide (0 ≤ pos.row) && decide (pos.row < 8) && decide (0 ≤ pos.col) && decide (pos.col < 8)

def positionsEqual (p1 p2 : Position) : Bool :=
  p1.row == p2.row && p1.col == p2.col

def backRank (c : PieceColor) : List (Option ChessPiece) :=
  [some ⟨.rook, c⟩, some ⟨.knight, c⟩, some ⟨.bishop, c⟩, some ⟨.queen, c⟩,
   some ⟨.king, c⟩, some ⟨.bishop, c⟩, some ⟨.knight, c⟩, some ⟨.rook, c⟩]

def pawnRank (c : PieceColor) : List (Option ChessPiece) :=
  List.replicate 8 (some ⟨.pawn, c⟩)

def emptyRank : List (Option ChessPiece) :=
  List.replicate 8 none

/-- `createInitialBoard`: rows 0/1 black, rows 6/7 white, back rank order
rook knight bishop queen king bishop knight rook. -/
def createInitialBoard : Board :=
  [backRank .black, pawnRank .black, emptyRank, emptyRank,
   emptyRank, emptyRank, pawnRank .white, backRank .white]

def createInitialGameState : GameState :=
  { board := createInitialBoard
    currentPlayer := .white
    status := .active
    moveHistory := []
    capturedPieces := ⟨[], []⟩
    castlingRights := ⟨true, true, true, true⟩
    enPassantTarget := none
    halfMoveClock := 0
    fullMoveNumber := 1 }

/-- The `direction` local of `getPawnMoves`: `color === 'white' ? -1 : 1`. -/
def pawnDirection (c : PieceColor) : Int :=
  if c == PieceColor.white then -1 else 1

def getPawnMoves (board : Board) (p : Position) (color : PieceColor)
    (enPassantTarget : Option Position) : List Position :=
  let direction := pawnDirection color
  let startRow : Int := if color == PieceColor.white then 6 else 1
  let oneForward : Position := ⟨p.row + direction, p.col⟩
  let forwardMoves : List Position :=
    if isValidPosition oneForward && (cellAt board oneForward).isNone then
      oneForward ::
        (if p.row == startRow then
          let twoForward : Position := ⟨p.row + 2 * direction, p.col⟩
          if isValidPosition twoForward && (cellAt board twoForward).isNone then
            [twoForward]
          else []
        else [])
    else []
  let captureLeft : Position := ⟨p.row + direction, p.col - 1⟩
  let captureRight : Position := ⟨p.row + direction, p.col + 1⟩
  let leftMoves : List Position :=
    if isValidPosition captureLeft then
      match cellAt board captureLeft with
      | some q => if q.color != color then [captureLeft] else []
      | none => []
    else []
  let rightMoves : List Position :=
    if isValidPosition captureRight then
      match cellAt board captureRight with
      | some q => if q.color != color then [captureRight] else []
      | none => []
    else []
  let epMoves : List Position :=
    match enPassantTarget with
    | some ep =>
      if positionsEqual captureLeft ep || positionsEqual captureRight ep then [ep] else []
    | none => []
  forwardMoves ++ leftMoves ++ rightMoves ++ epMoves

/-- One sliding direction of `getRookMoves`/`getBishopMoves`: the source's
`for (let i = 1; i < 8; i++)` loop with `break` semantics, fuel-counted. -/
def slideFrom (board : Board) (color : PieceColor) (p : Position)
    (rowDir colDir : Int) : Nat → Int → List Position
  | 0, _ => []
  | fuel + 1, i =>
    let tgt : Position := ⟨p.row + i * rowDir, p.col + i * colDir⟩
    if isValidPosition tgt then
      match cellAt board tgt with
      | none => tgt :: slideFrom board color p rowDir colDir fuel (i + 1)
      | some tp => if tp.color != color then [tgt] else []
    else []

def getRookMoves (board : Board) (p : Position) (color : PieceColor) : List Position :=
  ([(-1, 0), (1, 0), (0, -1), (0, 1)] : List (Int × Int)).flatMap
    (fun d => slideFrom board color p d.1 d.2 7 1)

def getKnightMoves (board : Board) (p : Position) (color : PieceColor) : List Position :=
  ([(-2, -1), (-2, 1), (-1, -2), (-1, 2), (1, -2), (1, 2), (2, -1), (2, 1)] :
      List (Int × Int)).filterMap (fun o =>
    let tgt : Position := ⟨p.row + o.1, p.col + o.2⟩
    if isValidPosition tgt then
      match cellAt board tgt with
      | none => some tgt
      | some tp => if tp.color != color then some tgt else none
    else none)

def getBishopMoves (board : Board) (p : Position) (color : PieceColor) : List Position :=
  ([(-1, -1), (-1, 1), (1, -1), (1, 1)] : List (Int × Int)).flatMap
    (fun d => slideFrom board color p d.1 d.2 7 1)

def getQueenMoves (board : Board) (p : Position) (color : PieceColor) : List Position :=
  getRookMoves board p color ++ getBishopMoves board p color

/-- The eight-adjacent-squares part of `getKingMoves` (the "Regular king
moves" loop).  The source's attack scan obtains exactly this list by calling
`getKingMoves` with all castling rights false and filtering to
`|move.col - from.col| <= 1`; lemma `kingAttackPattern_eq` below proves the
two agree. -/
def getKingMovesStd (board : Board) (p : Position) (color : PieceColor) : List Position :=
  ([(-1, -1), (-1, 0), (-1, 1), (0, -1), (0, 1), (1, -1), (1, 0), (1, 1)] :
      List (Int × Int)).filterMap (fun o =>
    let tgt : Position := ⟨p.row + o.1, p.col + o.2⟩
    if isValidPosition tgt then
      match cellAt board tgt with
      | none => some tgt
      | some tp => if tp.color != color then some tgt else none
    else none)

/-- `getPossibleMovesWithoutCheckValidation`: per-piece pseudo-legal moves
with en passant forced off and (for the king) castling excluded. -/
def getPossibleMovesWithoutCheckValidation (board : Board) (p : Position) : List Position :=
  match cellAt board p with
  | none => []
  | some piece =>
    match piece.type with
    | .pawn => getPawnMoves board p piece.color none
    | .rook => getRookMoves board p piece.color
    | .knight => getKnightMoves board p piece.color
    | .bishop => getBishopMoves board p piece.color
    | .queen => getQueenMoves board p piece.color
    | .king => getKingMovesStd board p piece.color

/-- `isSquareAttacked(board, square, byColor)`: scan all 64 squares for a
piece of `byColor` whose pseudo-legal moves contain `square`. -/
def isSquareAttacked (board : Board) (square : Position) (byColor : PieceColor) : Bool :=
  (List.range 8).any (fun row =>
    (List.range 8).any (fun col =>
      match cellAt board ⟨Int.ofNat row, Int.ofNat col⟩ with
      | some piece =>
        piece.color == byColor &&
          (getPossibleMovesWithoutCheckValidation board ⟨Int.ofNat row, Int.ofNat col⟩).any
            (fun m => positionsEqual m square)
      | none => false))

/-- Full `getKingMoves`: the eight adjacent squares plus the castling
candidates, with the source's guard order (rights flag, empty squares,
then the three `isSquareAttacked` tests). -/
def getKingMoves (board : Board) (p : Position) (color : PieceColor)
    (castlingRights : CastlingRights) : List Position :=
  let regular := getKingMovesStd board p color
  let castles : List Position :=
    if color == PieceColor.white && p.row == 7 && p.col == 4 then
      (if castlingRights.whiteKingSide &&
          (cellAt board ⟨7, 5⟩).isNone && (cellAt board ⟨7, 6⟩).isNone &&
          !isSquareAttacked board ⟨7, 4⟩ .black &&
          !isSquareAttacked board ⟨7, 5⟩ .black &&
          !isSquareAttacked board ⟨7, 6⟩ .black then
        [(⟨7, 6⟩ : Position)]
      else []) ++
      (if castlingRights.whiteQueenSide &&
          (cellAt board ⟨7, 1⟩).isNone && (cellAt board ⟨7, 2⟩).isNone &&
          (cellAt board ⟨7, 3⟩).isNone &&
          !isSquareAttacked board ⟨7, 4⟩ .black &&
          !isSquareAttacked board ⟨7, 3⟩ .black &&
          !isSquareAttacked board ⟨7, 2⟩ .black then
        [(⟨7, 2⟩ : Position)]
      else [])
    else if color == PieceColor.black && p.row == 0 && p.col == 4 then
      (if castlingRights.blackKingSide &&
          (cellAt board ⟨0, 5⟩).isNone && (cellAt board ⟨0, 6⟩).isNone &&
          !isSquareAttacked board ⟨0, 4⟩ .white &&
          !isSquareAttacked board ⟨0, 5⟩ .white &&
          !isSquareAttacked board ⟨0, 6⟩ .white then
        [(⟨0, 6⟩ : Position)]
      else []) ++
      (if castlingRights.blackQueenSide &&
          (cellAt board ⟨0, 1⟩).isNone && (cellAt board ⟨0, 2⟩).isNone &&
          (cellAt board ⟨0, 3⟩).isNone &&
          !isSquareAttacked board ⟨0, 4⟩ .white &&
          !isSquareAttacked board ⟨0, 3⟩ .white &&
          !isSquareAttacked board ⟨0, 2⟩ .white then
        [(⟨0, 2⟩ : Position)]
      else [])
    else []
  regular ++ castles

def findKing (board : Board) (color : PieceColor) : Option Position :=
  (List.range 8).findSome? (fun row =>
    (List.range 8).findSome? (fun col =>
      match cellAt board ⟨Int.ofNat row, Int.ofNat col⟩ with
      | some piece =>
        if piece.type == PieceType.king && piece.color == color then
          some (⟨Int.ofNat row, Int.ofNat col⟩ : Position)
        else none
      | none => none))

/-- The scratch-copy simulation inside `wouldBeInCheck`: move the piece from
`f` to `t` (destination written first, then origin cleared, as in the source);
en-passant pawn removal and castling rook relocation are NOT performed. -/
def simulateMove (board : Board) (f t : Position) : Board :=
  let piece := cellAt board f
  setCell (setCell board t piece) f none

/-- `wouldBeInCheck`: simulate the move, find the mover's king; when no king
is found the source returns `true` ("consider it check"). -/
def wouldBeInCheck (board : Board) (f t : Position) (color : PieceColor) : Bool :=
  let newBoard := simulateMove board f t
  match findKing newBoard color with
  | none => true
  | some kingPos =>
    isSquareAttacked newBoard kingPos
      (if color == PieceColor.white then PieceColor.black else PieceColor.white)

/-- `getPossibleMoves`: pseudo-legal dispatch then the self-check filter. -/
def getPossibleMoves (board : Board) (p : Position) (gameState : GameState) : List Position :=
  match cellAt board p with
  | none => []
  | some piece =>
    let moves : List Position :=
      match piece.type with
      | .pawn => getPawnMoves board p piece.color gameState.enPassantTarget
      | .rook => getRookMoves board p piece.color
      | .knight => getKnightMoves board p piece.color
      | .bishop => getBishopMoves board p piece.color
      | .queen => getQueenMoves board p piece.color
      | .king => getKingMoves board p piece.color gameState.castlingRights
    moves.filter (fun t => !wouldBeInCheck board p t piece.color)

def isInCheck (board : Board) (color : PieceColor) : Bool :=
  match findKing board color with
  | none => false
  | some kingPos =>
    isSquareAttacked board kingPos
      (if color == PieceColor.white then PieceColor.black else PieceColor.white)

def getAllPossibleMoves (board : Board) (color : PieceColor) (gameState : GameState) :
    List Move :=
  (List.range 8).flatMap (fun row =>
    (List.range 8).flatMap (fun col =>
      match cellAt board ⟨Int.ofNat row, Int.ofNat col⟩ with
      | some piece =>
        if piece.color == color then
          (getPossibleMoves board ⟨Int.ofNat row, Int.ofNat col⟩ gameState).map (fun t =>
            { fromSq := ⟨Int.ofNat row, Int.ofNat col⟩
              toSq := t
              piece := piece
              capturedPiece := cellAt board t
              notationStr := ""
              timestamp := dateNow
              isCheck := none
              isCheckmate := none
              isCastling := none
              isEnPassant := none
              promotionPiece := none })
        else []
      | none => []))

/-- `getGameStatus`: mate/stalemate first, then check, then the 50-move
clock, then the simplified insufficient-material test, else active. -/
def getGameStatus (gameState : GameState) : GameStatus :=
  let board := gameState.board
  let currentPlayer := gameState.currentPlayer
  let inCheck := isInCheck board currentPlayer
  let possibleMoves := getAllPossibleMoves board currentPlayer gameState
  if possibleMoves.length == 0 then
    if inCheck then .checkmate else .stalemate
  else if inCheck then .check
  else if 50 ≤ gameState.halfMoveClock then .draw
  else
    let pieces := board.flatten.filterMap id
    if decide (pieces.length ≤ 3) &&
        pieces.all (fun q =>
          q.type == PieceType.king || q.type == PieceType.knight ||
          q.type == PieceType.bishop) then
      .draw
    else .active

/-- The castling-rights update block of `makeMove` (two sequential `if`
blocks; rights are only ever assigned `false`). -/
def updateCastlingRights (cr : CastlingRights) (piece : ChessPiece)
    (currentPlayer : PieceColor) (f : Position) : CastlingRights :=
  let cr1 :=
    if piece.type == PieceType.king then
      if currentPlayer == PieceColor.white then
        { cr with whiteKingSide := false, whiteQueenSide := false }
      else
        { cr with blackKingSide := false, blackQueenSide := false }
    else cr
  if piece.type == PieceType.rook then
    if currentPlayer == PieceColor.white then
      let a := if f.col == 0 then { cr1 with whiteQueenSide := false } else cr1
      if f.col == 7 then { a with whiteKingSide := false } else a
    else
      let a := if f.col == 0 then { cr1 with blackQueenSide := false } else cr1
      if f.col == 7 then { a with blackKingSide := false } else a
  else cr1

/-- `files[c]` of the source: file letter for a column. -/
def fileChar (c : Int) : Char :=
  "abcdefgh".toList.getD c.toNat ' '

/-- `ranks[r]` of the source: rank digit for a row (rank order 8..1). -/
def rankChar (r : Int) : Char :=
  "87654321".toList.getD r.toNat ' '

/-- `piece.type.charAt(0).toUpperCase()` of the source; note knight and king
both yield "K" there. -/
def pieceLetter (t : PieceType) : String :=
  match t with
  | .pawn => "P"
  | .rook => "R"
  | .knight => "K"
  | .bishop => "B"
  | .queen => "Q"
  | .king => "K"

def createMoveNotation (piece : ChessPiece) (f t : Position)
    (isCapture isCastling isEnPassant : Bool) : String :=
  if isCastling then
    if t.col > f.col then "O-O" else "O-O-O"
  else
    let n1 := if piece.type != PieceType.pawn then pieceLetter piece.type else ""
    let n2 :=
      if isCapture then
        n1 ++ (if piece.type == PieceType.pawn then String.singleton (fileChar f.col) else "")
          ++ "x"
      else n1
    let n3 := n2 ++ String.singleton (fileChar t.col) ++ String.singleton (rankChar t.row)
    if isEnPassant then n3 ++ " e.p." else n3

def pushLedger (cp : CapturedPieces) (c : PieceColor) (piece : ChessPiece) :
    CapturedPieces :=
  match c with
  | .white => { cp with white := cp.white ++ [piece] }
  | .black => { cp with black := cp.black ++ [piece] }

/-- `makeMove(gameState, from, to)`: value-level translation.  It returns the
state the source returns; the store-passing variant `makeMoveH` below
additionally models the source's in-place `push` on the captured-piece
arrays shared with the input state. -/
def makeMove (gameState : GameState) (f t : Position) : Option GameState :=
  match cellAt gameState.board f with
  | none => none
  | some piece =>
    if piece.color != gameState.currentPlayer then none
    else
      let possibleMoves := getPossibleMoves gameState.board f gameState
      if !(possibleMoves.any (fun m => positionsEqual m t)) then none
      else
        let board := gameState.board
        let capturedPiece := cellAt board t
        let isEnPassantB : Bool :=
          piece.type == PieceType.pawn &&
            (match gameState.enPassantTarget with
             | some ep => positionsEqual t ep
             | none => false)
        let board1 :=
          if isEnPassantB then
            let captureRow : Int :=
              if gameState.currentPlayer == PieceColor.white then t.row + 1 else t.row - 1
            setCell board ⟨captureRow, t.col⟩ none
          else board
        let isCastlingB : Bool :=
          piece.type == PieceType.king && (t.col - f.col).natAbs == 2
        let board2 :=
          if isCastlingB then
            let isKingSide := decide (f.col < t.col)
            let rookFromCol : Int := if isKingSide then 7 else 0
            let rookToCol : Int := if isKingSide then 5 else 3
            let rookRow := f.row
            setCell
              (setCell board1 ⟨rookRow, rookToCol⟩ (cellAt board1 ⟨rookRow, rookFromCol⟩))
              ⟨rookRow, rookFromCol⟩ none
          else board1
        let board3 := setCell (setCell board2 t (some piece)) f none
        let board4 :=
          if piece.type == PieceType.pawn && (t.row == 0 || t.row == 7) then
            setCell board3 t (some ⟨PieceType.queen, piece.color⟩)
          else board3
        let cp1 :=
          match capturedPiece with
          | some cap => pushLedger gameState.capturedPieces cap.color cap
          | none => gameState.capturedPieces
        let cp2 :=
          if isEnPassantB then
            let capColor : PieceColor :=
              if gameState.currentPlayer == PieceColor.white then .black else .white
            pushLedger cp1 capColor ⟨PieceType.pawn, capColor⟩
          else cp1
        let newEnPassantTarget : Option Position :=
          if piece.type == PieceType.pawn && (t.row - f.row).natAbs == 2 then
            some ⟨(f.row + t.row) / 2, f.col⟩
          else none
        let notationString :=
          createMoveNotation piece f t capturedPiece.isSome isCastlingB isEnPassantB
        let move : Move :=
          { fromSq := f
            toSq := t
            piece := piece
            capturedPiece := capturedPiece
            notationStr := notationString
            timestamp := dateNow
            isCheck := none
            isCheckmate := none
            isCastling := some isCastlingB
            isEnPassant := some isEnPassantB
            promotionPiece := none }
        let newGameState : GameState :=
          { board := board4
            currentPlayer :=
              if gameState.currentPlayer == PieceColor.white then .black else .white
            status := .active
            moveHistory := gameState.moveHistory ++ [move]
            capturedPieces := cp2
            castlingRights :=
              updateCastlingRights gameState.castlingRights piece gameState.currentPlayer f
            enPassantTarget := newEnPassantTarget
            halfMoveClock :=
              if capturedPiece.isSome || piece.type == PieceType.pawn then 0
              else gameState.halfMoveClock + 1
            fullMoveNumber :=
              if gameState.currentPlayer == PieceColor.black then
                gameState.fullMoveNumber + 1
              else gameState.fullMoveNumber }
        some { newGameState with status := getGameStatus newGameState }

/-- Fold `makeMove` over a list of (from, to) pairs; `none` as soon as a move
is rejected.  A state `s` with `applyMoves createInitialGameState ms = some s`
is reachable from the initial state by accepted moves. -/
def applyMoves (gs : GameState) : List (Position × Position) → Option GameState
  | [] => some gs
  | (f, t) :: rest =>
    match makeMove gs f t with
    | some gs' => applyMoves gs' rest
    | none => none

def positionToAlgebraic (pos : Position) : String :=
  String.singleton (fileChar pos.col) ++ String.singleton (rankChar pos.row)

/-- `String.prototype.indexOf`: index of the first occurrence, `-1` if absent. -/
def strIndexOf (s : String) (c : Char) : Int :=
  match s.toList.findIdx? (fun x => x == c) with
  | some i => Int.ofNat i
  | none => -1

def algebraicToPosition (algebraic : String) : Position :=
  { col := strIndexOf "abcdefgh" (algebraic.toList.getD 0 ' ')
    row := strIndexOf "87654321" (algebraic.toList.getD 1 ' ') }

/-!
Store-passing model of `makeMove`.

In the source, `makeMove` copies the captured-piece ledger with a shallow
object spread (`{ ...gameState.capturedPieces }`): the two arrays themselves
are shared with the input state, and `newCapturedPieces[color].push(...)`
appends to those shared arrays in place.  To reason about this effect, the
two ledger arrays are modelled as references (indices) into an explicit
store of lists; everything else in `makeMoveH` is identical to `makeMove`.
-/

abbrev Store : Type := List (List ChessPiece)

structure GameStateH where
  board : Board
  currentPlayer : PieceColor
  status : GameStatus
  moveHistory : List Move
  capturedWhiteRef : Nat
  capturedBlackRef : Nat
  castlingRights : CastlingRights
  enPassantTarget : Option Position
  halfMoveClock : Nat
  fullMoveNumber : Nat
deriving DecidableEq

/-- `newCapturedPieces[c]` resolves to the array reference held in the
(shallow-copied) ledger object, i.e. the reference held by the input state. -/
def refOf (gs : GameStateH) (c : PieceColor) : Nat :=
  match c with
  | .white => gs.capturedWhiteRef
  | .black => gs.capturedBlackRef

/-- `array.push(piece)` on the array stored at `ref`. -/
def storePush (store : Store) (ref : Nat) (piece : ChessPiece) : Store :=
  store.set ref (store.getD ref [] ++ [piece])

/-- View a heap game state as a value-level `GameState` (dereferencing the
two ledger arrays). -/
def toPure (gs : GameStateH) (store : Store) : GameState :=
  { board := gs.board
    currentPlayer := gs.currentPlayer
    status := gs.status
    moveHistory := gs.moveHistory
    capturedPieces :=
      ⟨store.getD gs.capturedWhiteRef [], store.getD gs.capturedBlackRef []⟩
    castlingRights := gs.castlingRights
    enPassantTarget := gs.enPassantTarget
    halfMoveClock := gs.halfMoveClock
    fullMoveNumber := gs.fullMoveNumber }

/-- `makeMove`, store-passing translation: identical to `makeMove` except
that the ledger pushes go through the store at the references shared with
the input state.  A rejected move returns the store untouched. -/
def makeMoveH (gs : GameStateH) (store : Store) (f t : Position) :
    Option GameStateH × Store :=
  match cellAt gs.board f with
  | none => (none, store)
  | some piece =>
    if piece.color != gs.currentPlayer then (none, store)
    else
      let possibleMoves := getPossibleMoves gs.board f (toPure gs store)
      if !(possibleMoves.any (fun m => positionsEqual m t)) then (none, store)
      else
        let board := gs.board
        let capturedPiece := cellAt board t
        let isEnPassantB : Bool :=
          piece.type == PieceType.pawn &&
            (match gs.enPassantTarget with
             | some ep => positionsEqual t ep
             | none => false)
        let board1 :=
          if isEnPassantB then
            let captureRow : Int :=
              if gs.currentPlayer == PieceColor.white then t.row + 1 else t.row - 1
            setCell board ⟨captureRow, t.col⟩ none
          else board
        let isCastlingB : Bool :=
          piece.type == PieceType.king && (t.col - f.col).natAbs == 2
        let board2 :=
          if isCastlingB then
            let isKingSide := decide (f.col < t.col)
            let rookFromCol : Int := if isKingSide then 7 else 0
            let rookToCol : Int := if isKingSide then 5 else 3
            let rookRow := f.row
            setCell
              (setCell board1 ⟨rookRow, rookToCol⟩ (cellAt board1 ⟨rookRow, rookFromCol⟩))
              ⟨rookRow, rookFromCol⟩ none
          else board1
        let board3 := setCell (setCell board2 t (some piece)) f none
        let board4 :=
          if piece.type == PieceType.pawn && (t.row == 0 || t.row == 7) then
            setCell board3 t (some ⟨PieceType.queen, piece.color⟩)
          else board3
        let store1 :=
          match capturedPiece with
          | some cap => storePush store (refOf gs cap.color) cap
          | none => store
        let store2 :=
          if isEnPassantB then
            let capColor : PieceColor :=
              if gs.currentPlayer == PieceColor.white then .black else .white
            storePush store1 (refOf gs capColor) ⟨PieceType.pawn, capColor⟩
          else store1
        let newEnPassantTarget : Option Position :=
          if piece.type == PieceType.pawn && (t.row - f.row).natAbs == 2 then
            some ⟨(f.row + t.row) / 2, f.col⟩
          else none
        let notationString :=
          createMoveNotation piece f t capturedPiece.isSome isCastlingB isEnPassantB
        let move : Move :=
          { fromSq := f
            toSq := t
            piece := piece
            capturedPiece := capturedPiece
            notationStr := notationString
            timestamp := dateNow
            isCheck := none
            isCheckmate := none
            isCastling := some isCastlingB
            isEnPassant := some isEnPassantB
            promotionPiece := none }
        let newGameState : GameStateH :=
          { board := board4
            currentPlayer :=
              if gs.currentPlayer == PieceColor.white then .black else .white
            status := .active
            moveHistory := gs.moveHistory ++ [move]
            capturedWhiteRef := gs.capturedWhiteRef
            capturedBlackRef := gs.capturedBlackRef
            castlingRights :=
              updateCastlingRights gs.castlingRights piece gs.currentPlayer f
            enPassantTarget := newEnPassantTarget
            halfMoveClock :=
              if capturedPiece.isSome || piece.type == PieceType.pawn then 0
              else gs.halfMoveClock + 1
            fullMoveNumber :=
              if gs.currentPlayer == PieceColor.black then
                gs.fullMoveNumber + 1
              else gs.fullMoveNumber }
        (some { newGameState with
                  status := getGameStatus (toPure newGameState store2) },
         store2)

def initialStore : Store := [[], []]

def createInitialGameStateH : GameStateH :=
  { board := createInitialBoard
    currentPlayer := .white
    status := .active
    moveHistory := []
    capturedWhiteRef := 0
    capturedBlackRef := 1
    castlingRights := ⟨true, true, true, true⟩
    enPassantTarget := none
    halfMoveClock := 0
    fullMoveNumber := 1 }

def applyMovesH : GameStateH → Store → List (Position × Position) →
    Option GameStateH × Store
  | gs, store, [] => (some gs, store)
  | gs, store, (f, t) :: rest =>
    match makeMoveH gs store f t with
    | (some gs', store') => applyMovesH gs' store' rest
    | (none, store') => (none, store')

/-! Example positions used by the claim theorems and their witnesses. -/

def emptyBoard : Board := List.replicate 8 (List.replicate 8 none)

def boardOfPieces (ps : List (Position × ChessPiece)) : Board :=
  ps.foldl (fun b pc => setCell b pc.1 (some pc.2)) emptyBoard

/-- 1.e4 c6 2.e5 Qa5 3.Ke2 a6 4.Kf3 b6 5.Kg4 h6 6.Kh5 d5: after this
sequence the white pawn on e5 may capture d5 en passant according to the
engine, even though doing so exposes the white king on h5 to the queen on
a5 once both pawns leave the fifth rank. -/
def c1Moves : List (Position × Position) :=
  [ (⟨6, 4⟩, ⟨4, 4⟩), (⟨1, 2⟩, ⟨2, 2⟩), (⟨4, 4⟩, ⟨3, 4⟩), (⟨0, 3⟩, ⟨3, 0⟩),
    (⟨7, 4⟩, ⟨6, 4⟩), (⟨1, 0⟩, ⟨2, 0⟩), (⟨6, 4⟩, ⟨5, 5⟩), (⟨1, 1⟩, ⟨2, 1⟩),
    (⟨5, 5⟩, ⟨4, 6⟩), (⟨1, 7⟩, ⟨2, 7⟩), (⟨4, 6⟩, ⟨3, 7⟩), (⟨1, 3⟩, ⟨3, 3⟩) ]

/-- White king in check from the rook on e8 while the half-move clock is
already at 50; escape squares exist. -/
def c3CheckState : GameState :=
  { board := boardOfPieces
      [(⟨7, 4⟩, ⟨.king, .white⟩), (⟨0, 4⟩, ⟨.rook, .black⟩), (⟨0, 0⟩, ⟨.king, .black⟩)]
    currentPlayer := .white
    status := .active
    moveHistory := []
    capturedPieces := ⟨[], []⟩
    castlingRights := ⟨false, false, false, false⟩
    enPassantTarget := none
    halfMoveClock := 50
    fullMoveNumber := 1 }

/-- Half-move clock at 50, side to move not in check and with legal moves. -/
def c3DrawState : GameState :=
  { board := boardOfPieces
      [(⟨7, 4⟩, ⟨.king, .white⟩), (⟨0, 0⟩, ⟨.king, .black⟩), (⟨0, 7⟩, ⟨.rook, .black⟩)]
    currentPlayer := .white
    status := .active
    moveHistory := []
    capturedPieces := ⟨[], []⟩
    castlingRights := ⟨false, false, false, false⟩
    enPassantTarget := none
    halfMoveClock := 50
    fullMoveNumber := 1 }

/-- A board with no white king: a white rook and the black king only. -/
def c5Board : Board :=
  boardOfPieces [(⟨0, 0⟩, ⟨.rook, .white⟩), (⟨4, 4⟩, ⟨.king, .black⟩)]

def c5State : GameState :=
  { board := c5Board
    currentPlayer := .white
    status := .active
    moveHistory := []
    capturedPieces := ⟨[], []⟩
    castlingRights := ⟨false, false, false, false⟩
    enPassantTarget := none
    halfMoveClock := 0
    fullMoveNumber := 1 }

/-- White pawn e5, black pawn d5, en-passant target d6: the en-passant
capture e5xd6 is accepted. -/
def c6State : GameState :=
  { board := boardOfPieces
      [(⟨7, 4⟩, ⟨.king, .white⟩), (⟨0, 4⟩, ⟨.king, .black⟩),
       (⟨3, 4⟩, ⟨.pawn, .white⟩), (⟨3, 3⟩, ⟨.pawn, .black⟩)]
    currentPlayer := .white
    status := .active
    moveHistory := []
    capturedPieces := ⟨[], []⟩
    castlingRights := ⟨false, false, false, false⟩
    enPassantTarget := some ⟨2, 3⟩
    halfMoveClock := 0
    fullMoveNumber := 1 }

/-- Two bare kings with `status` set to `draw`: the side to move still has
accepted moves. -/
def c10DrawState : GameState :=
  { board := boardOfPieces [(⟨7, 4⟩, ⟨.king, .white⟩), (⟨0, 0⟩, ⟨.king, .black⟩)]
    currentPlayer := .white
    status := .draw
    moveHistory := []
    capturedPieces := ⟨[], []⟩
    castlingRights := ⟨false, false, false, false⟩
    enPassantTarget := none
    halfMoveClock := 0
    fullMoveNumber := 1 }

/-- After 1.e4 d5, the capture 2.exd5: the two ledger lists observed through
the references held by the state that was passed INTO the third `makeMoveH`
call, read before and after that call. -/
def c2Observation : Option (List ChessPiece × List ChessPiece) :=
  match applyMovesH createInitialGameStateH initialStore
      [(⟨6, 4⟩, ⟨4, 4⟩), (⟨1, 3⟩, ⟨3, 3⟩)] with
  | (some s2, st2) =>
    let before := st2.getD s2.capturedBlackRef []
    (match makeMoveH s2 st2 ⟨4, 4⟩ ⟨3, 3⟩ with
     | (some _, st3) => some (before, st3.getD s2.capturedBlackRef [])
     | (none, _) => none)
  | (none, _) => none

/-- Boolean statement that each castling right in `newRights` implies the
corresponding right in `oldRights`. -/
def castlingRightsMono (oldRights newRights : CastlingRights) : Bool :=
  (!newRights.whiteKingSide || oldRights.whiteKingSide) &&
  (!newRights.whiteQueenSide || oldRights.whiteQueenSide) &&
  (!newRights.blackKingSide || oldRights.blackKingSide) &&
  (!newRights.blackQueenSide || oldRights.blackQueenSide)

lemma isValidPosition_iff (pos : Position) :
    isValidPosition pos = true ↔
      0 ≤ pos.row ∧ pos.row < 8 ∧ 0 ≤ pos.col ∧ pos.col < 8 := by
  simp [isValidPosition, and_assoc]

/-- Sanity check for the embedding of the attack scan's king case: calling
the full `getKingMoves` with all castling rights false and filtering to
`|move.col - from.col| <= 1` (what the source's
`getPossibleMovesWithoutCheckValidation` does) yields exactly
`getKingMovesStd`. -/
lemma kingAttackPattern_eq (board : Board) (p : Position) (color : PieceColor) :
    (getKingMoves board p color ⟨false, false, false, false⟩).filter
      (fun m => decide ((m.col - p.col).natAbs ≤ 1)) = getKingMovesStd board p color := by
  have hcastles :
      getKingMoves board p color ⟨false, false, false, false⟩ =
        getKingMovesStd board p color := by
    unfold getKingMoves
    simp
  rw [hcastles, List.filter_eq_self]
  intro a ha
  simp only [getKingMovesStd, List.mem_filterMap] at ha
  obtain ⟨o, ho, hf⟩ := ha
  have hcol : a.col = p.col + o.2 := by
    split at hf
    · split at hf
      · injection hf with hf
        rw [← hf]
      · split at hf
        · injection hf with hf
          rw [← hf]
        · cases hf
    · cases hf
  fin_cases ho <;> simp [hcol]

/-- C1 (amended): every target returned by `getPossibleMoves` passes the
engine's own self-check filter `wouldBeInCheck ... = false`.  That filter
simulates only the bare piece relocation from `from` to `to`: it performs
neither the en-passant pawn removal nor the castling rook relocation that
`makeMove` performs, so it is a weaker guarantee than "the king is not
attacked after the move is applied by `makeMove`". -/
theorem c1_filter_scratch_simulation (board : Board) (f : Position)
    (gs : GameState) (t : Position) (hmem : t ∈ getPossibleMoves board f gs) :
    ∃ piece, cellAt board f = some piece ∧
      wouldBeInCheck board f t piece.color = false := by
  unfold getPossibleMoves at hmem
  cases hcell : cellAt board f with
  | none =>
    rw [hcell] at hmem
    simp at hmem
  | some piece =>
    rw [hcell] at hmem
    refine ⟨piece, rfl, ?_⟩
    have h := List.mem_filter.mp hmem
    simpa using h.2

theorem c1_filter_scratch_simulation_witness :
    (⟨5, 4⟩ : Position) ∈
      getPossibleMoves createInitialBoard ⟨6, 4⟩ createInitialGameState ∧
    ∃ piece, cellAt createInitialBoard ⟨6, 4⟩ = some piece ∧
      wouldBeInCheck createInitialBoard ⟨6, 4⟩ ⟨5, 4⟩ piece.color = false :=
  ⟨by decide, c1_filter_scratch_simulation createInitialBoard ⟨6, 4⟩
    createInitialGameState ⟨5, 4⟩ (by decide)⟩

/-- C1 (counterexample): in the position reached from the initial state by
the accepted moves `c1Moves` (1.e4 c6 2.e5 Qa5 3.Ke2 a6 4.Kf3 b6 5.Kg4 h6
6.Kh5 d5), `getPossibleMoves` offers the en-passant capture d6 for the pawn
on e5, and applying it with `makeMove` leaves the white (moving) king
attacked: the filter's simulation kept the captured d5 pawn on the board,
blocking the a5 queen's line to h5. -/
theorem c1_reachable_ep_leaves_king_attacked :
    ((applyMoves createInitialGameState c1Moves).map (fun s =>
      (getPossibleMoves s.board ⟨3, 4⟩ s).any (fun m => positionsEqual m ⟨2, 3⟩) &&
      (((makeMove s ⟨3, 4⟩ ⟨2, 3⟩).map
          (fun s2 => isInCheck s2.board PieceColor.white)).getD false))) = some true := by
  rfl

/-- C2: the source's `makeMove` copies the captured-piece ledger with a
shallow spread and `push`es onto the arrays shared with the input state.
In the store model, after 1.e4 d5 the ledger list reachable through the
input state's black-ledger reference is `[]` before the accepted capture
2.exd5 and `[black pawn]` after it: the input state is observed to change. -/
theorem c2_capture_mutates_input_ledger :
    c2Observation = some ([], [⟨PieceType.pawn, PieceColor.black⟩]) ∧
    ([] : List ChessPiece) ≠ [⟨PieceType.pawn, PieceColor.black⟩] :=
  ⟨by rfl, by decide⟩

/-- C3 (amended): reaching half-move clock 50 yields status draw only when
the side to move still has a legal move and is not in check; `getGameStatus`
tests mate/stalemate and check before the 50-move clock. -/
theorem c3_fifty_move_draw (s : GameState) (hclock : 50 ≤ s.halfMoveClock)
    (hmoves : getAllPossibleMoves s.board s.currentPlayer s ≠ [])
    (hcheck : isInCheck s.board s.currentPlayer = false) :
    getGameStatus s = GameStatus.draw := by
  have h1 : ((getAllPossibleMoves s.board s.currentPlayer s).length == 0) = false := by
    simp only [beq_eq_false_iff_ne, ne_eq, List.length_eq_zero]
    exact hmoves
  unfold getGameStatus
  simp only [h1, hcheck, Bool.false_eq_true, if_false]
  rw [if_pos hclock]

theorem c3_fifty_move_draw_witness :
    50 ≤ c3DrawState.halfMoveClock ∧
    getAllPossibleMoves c3DrawState.board c3DrawState.currentPlayer c3DrawState ≠ [] ∧
    isInCheck c3DrawState.board c3DrawState.currentPlayer = false ∧
    getGameStatus c3DrawState = GameStatus.draw :=
  ⟨by decide, by decide, by rfl,
    c3_fifty_move_draw c3DrawState (by decide) (by decide) (by rfl)⟩

/-- C3 (counterexample): `c3CheckState` has half-move clock 50, yet
`getGameStatus` returns `check`, not `draw`, because the in-check test
precedes the 50-move test. -/
theorem c3_fifty_move_check_not_draw :
    50 ≤ c3CheckState.halfMoveClock ∧
    getGameStatus c3CheckState = GameStatus.check ∧
    GameStatus.check ≠ GameStatus.draw :=
  ⟨by decide, by rfl, by decide⟩

/-- C4: a move whose origin does not hold a piece of the current player, or
whose target is not among `getPossibleMoves`, is rejected: `makeMove`
returns `none` (a rejection value, not an exception — the embedding is total
on the grid) and, in the store model, `makeMoveH` returns the store
untouched, so everything observable through the input state is
byte-for-byte unchanged. -/
theorem c4_reject_leaves_state_untouched (s : GameState) (gs : GameStateH)
    (store : Store) (f t f2 t2 : Position)
    (h1 : (∀ piece, cellAt s.board f = some piece →
            (piece.color == s.currentPlayer) = false) ∨
          (getPossibleMoves s.board f s).any (fun m => positionsEqual m t) = false)
    (h2 : (∀ piece, cellAt gs.board f2 = some piece →
            (piece.color == gs.currentPlayer) = false) ∨
          (getPossibleMoves gs.board f2 (toPure gs store)).any
            (fun m => positionsEqual m t2) = false) :
    makeMove s f t = none ∧ makeMoveH gs store f2 t2 = (none, store) := by
  constructor
  · unfold makeMove
    split
    · rfl
    next piece hcell =>
      split
      · rfl
      next hbne =>
        dsimp only
        split
        · rfl
        next hnot =>
          exfalso
          rcases h1 with h | h
          · exact hbne (by simp [bne, h piece hcell])
          · exact hnot (by simp [h])
  · unfold makeMoveH
    split
    · rfl
    next piece hcell =>
      split
      · rfl
      next hbne =>
        dsimp only
        split
        · rfl
        next hnot =>
          exfalso
          rcases h2 with h | h
          · exact hbne (by simp [bne, h piece hcell])
          · exact hnot (by simp [h])

theorem c4_reject_witness :
    ((getPossibleMoves createInitialGameState.board ⟨6, 4⟩ createInitialGameState).any
       (fun m => positionsEqual m ⟨3, 3⟩) = false) ∧
    ((getPossibleMoves createInitialGameStateH.board ⟨6, 4⟩
        (toPure createInitialGameStateH initialStore)).any
       (fun m => positionsEqual m ⟨3, 3⟩) = false) ∧
    makeMove createInitialGameState ⟨6, 4⟩ ⟨3, 3⟩ = none ∧
    makeMoveH createInitialGameStateH initialStore ⟨6, 4⟩ ⟨3, 3⟩ = (none, initialStore) :=
  have hp : (getPossibleMoves createInitialGameState.board ⟨6, 4⟩
      createInitialGameState).any (fun m => positionsEqual m ⟨3, 3⟩) = false := by decide
  have hh : (getPossibleMoves createInitialGameStateH.board ⟨6, 4⟩
      (toPure createInitialGameStateH initialStore)).any
        (fun m => positionsEqual m ⟨3, 3⟩) = false := by decide
  have hmain := c4_reject_leaves_state_untouched createInitialGameState
    createInitialGameStateH initialStore ⟨6, 4⟩ ⟨3, 3⟩ ⟨6, 4⟩ ⟨3, 3⟩
    (Or.inr hp) (Or.inr hh)
  ⟨hp, hh, hmain.1, hmain.2⟩

/-- C5 (amended): on a board where a color's king is absent, no attack scan
errors, but the two scans disagree: `isInCheck` treats the position as not
in check, while the legal-move filter's `wouldBeInCheck` treats it as in
check (so every candidate move of that color is discarded). -/
theorem c5_missing_king_scans :
    (∀ (board : Board) (color : PieceColor), findKing board color = none →
      isInCheck board color = false) ∧
    (∀ (board : Board) (f t : Position) (color : PieceColor),
      findKing (simulateMove board f t) color = none →
      wouldBeInCheck board f t color = true) := by
  constructor
  · intro board color h
    unfold isInCheck
    rw [h]
  · intro board f t color h
    unfold wouldBeInCheck
    dsimp only
    rw [h]

theorem c5_missing_king_scans_witness :
    findKing c5Board PieceColor.white = none ∧
    isInCheck c5Board PieceColor.white = false ∧
    findKing (simulateMove c5Board ⟨0, 0⟩ ⟨0, 1⟩) PieceColor.white = none ∧
    wouldBeInCheck c5Board ⟨0, 0⟩ ⟨0, 1⟩ PieceColor.white = true :=
  have h1 : findKing c5Board PieceColor.white = none := by rfl
  have h2 : findKing (simulateMove c5Board ⟨0, 0⟩ ⟨0, 1⟩) PieceColor.white = none := by rfl
  ⟨h1, c5_missing_king_scans.1 c5Board PieceColor.white h1,
   h2, c5_missing_king_scans.2 c5Board ⟨0, 0⟩ ⟨0, 1⟩ PieceColor.white h2⟩

/-- C5 (counterexample): on `c5Board` (white rook a8, black king only, no
white king) `isInCheck` is `false` but the filter's `wouldBeInCheck` is
`true`, so the white rook — which has pseudo-legal moves — ends up with an
empty `getPossibleMoves` list: candidate moves ARE discarded, contradicting
the claim that the filter reports "cannot be in check". -/
theorem c5_missing_king_discards_moves :
    isInCheck c5Board PieceColor.white = false ∧
    wouldBeInCheck c5Board ⟨0, 0⟩ ⟨0, 1⟩ PieceColor.white = true ∧
    getPossibleMovesWithoutCheckValidation c5Board ⟨0, 0⟩ ≠ [] ∧
    getPossibleMoves c5Board ⟨0, 0⟩ c5State = [] :=
  ⟨by rfl, by rfl, by decide, by rfl⟩

/-- C6 (amended): for every accepted en-passant capture (pawn of the current
player moving onto the en-passant target square, destination empty), the
notation recorded in the move record is just destination square + " e.p." —
with NO capture marker, because `makeMove` derives its `isCapture` flag from
the occupancy of the destination square, which is empty for en passant. -/
theorem c6_ep_notation (s : GameState) (f t : Position) (piece : ChessPiece)
    (hcell : cellAt s.board f = some piece)
    (hpawn : piece.type = PieceType.pawn)
    (hcolor : piece.color = s.currentPlayer)
    (hep : s.enPassantTarget = some t)
    (hempty : cellAt s.board t = none)
    (hacc : (getPossibleMoves s.board f s).any (fun m => positionsEqual m t) = true) :
    (makeMove s f t).bind
        (fun s2 => s2.moveHistory.getLast?.map (fun m => m.notationStr)) =
      some (positionToAlgebraic t ++ " e.p.") := by
  have hbne : (piece.color != s.currentPlayer) = false := by
    rw [hcolor]
    simp
  have hnot : (!(getPossibleMoves s.board f s).any (fun m => positionsEqual m t)) = false := by
    simp [hacc]
  simp only [makeMove, hcell, hbne, hnot, Bool.false_eq_true, if_false]
  simp only [Option.bind_some, List.getLast?_concat, Option.map_some, hempty, hep, hpawn,
    createMoveNotation, positionsEqual, Option.isSome_none]
  simp [positionToAlgebraic]

theorem c6_ep_notation_witness :
    cellAt c6State.board ⟨3, 4⟩ = some ⟨PieceType.pawn, PieceColor.white⟩ ∧
    c6State.enPassantTarget = some ⟨2, 3⟩ ∧
    cellAt c6State.board ⟨2, 3⟩ = none ∧
    (getPossibleMoves c6State.board ⟨3, 4⟩ c6State).any
      (fun m => positionsEqual m ⟨2, 3⟩) = true ∧
    (makeMove c6State ⟨3, 4⟩ ⟨2, 3⟩).bind
        (fun s2 => s2.moveHistory.getLast?.map (fun m => m.notationStr)) =
      some (positionToAlgebraic ⟨2, 3⟩ ++ " e.p.") :=
  ⟨by rfl, by rfl, by rfl, by rfl,
   c6_ep_notation c6State ⟨3, 4⟩ ⟨2, 3⟩ ⟨PieceType.pawn, PieceColor.white⟩
     (by rfl) (by rfl) (by rfl) (by rfl) (by rfl) (by rfl)⟩

/-- C6 (counterexample): in `c6State` the en-passant capture e5xd6 is
accepted, and the recorded notation is "d6 e.p." — not the claimed
"exd6 e.p." (origin file + "x" + destination + " e.p."). -/
theorem c6_ep_notation_no_capture_marker :
    ((makeMove c6State ⟨3, 4⟩ ⟨2, 3⟩).bind (fun s2 => s2.moveHistory.getLast?)).map
        (fun m => (m.notationStr, m.isEnPassant)) = some ("d6 e.p.", some true) ∧
    "d6 e.p." ≠ "exd6 e.p." :=
  ⟨by rfl, by decide⟩


lemma updateCastlingRights_mono (cr : CastlingRights) (piece : ChessPiece)
    (cp : PieceColor) (f : Position) :
    castlingRightsMono cr (updateCastlingRights cr piece cp f) = true := by
  obtain ⟨a, b, c, d⟩ := cr
  obtain ⟨pt, pc⟩ := piece
  unfold updateCastlingRights castlingRightsMono
  cases pt <;> cases cp <;>
    by_cases h0 : (f.col == (0 : Int)) = true <;>
    by_cases h7 : (f.col == (7 : Int)) = true <;>
    simp [h0, h7]

/-- C7: castling rights are monotonically non-increasing across every
accepted `makeMove`: each of the four flags in the new state implies the
corresponding flag in the old state (the update only ever clears flags). -/
theorem c7_castling_rights_monotone (s : GameState) (f t : Position) (s2 : GameState)
    (h : makeMove s f t = some s2) :
    castlingRightsMono s.castlingRights s2.castlingRights = true := by
  unfold makeMove at h
  split at h
  · cases h
  next piece hcell =>
    split at h
    · cases h
    next =>
      dsimp only at h
      split at h
      · cases h
      next =>
        injection h with h
        rw [← h]
        exact updateCastlingRights_mono s.castlingRights piece s.currentPlayer f

theorem c7_castling_rights_monotone_witness :
    castlingRightsMono createInitialGameState.castlingRights
      ((makeMove createInitialGameState ⟨6, 4⟩ ⟨4, 4⟩).get (by rfl)).castlingRights = true :=
  c7_castling_rights_monotone createInitialGameState ⟨6, 4⟩ ⟨4, 4⟩
    ((makeMove createInitialGameState ⟨6, 4⟩ ⟨4, 4⟩).get (by rfl))
    (Option.some_get (by rfl)).symm

/-- C8: coordinate serialization round-trips on every on-board square. -/
theorem c8_algebraic_roundtrip (p : Position) (hr0 : 0 ≤ p.row) (hr8 : p.row < 8)
    (hc0 : 0 ≤ p.col) (hc8 : p.col < 8) :
    algebraicToPosition (positionToAlgebraic p) = p := by
  obtain ⟨r, c⟩ := p
  simp only at hr0 hr8 hc0 hc8
  interval_cases r <;> interval_cases c <;> rfl

theorem c8_algebraic_roundtrip_witness :
    (0 : Int) ≤ 3 ∧ (3 : Int) < 8 ∧ (0 : Int) ≤ 5 ∧ (5 : Int) < 8 ∧
    algebraicToPosition (positionToAlgebraic ⟨3, 5⟩) = ⟨3, 5⟩ :=
  ⟨by decide, by decide, by decide, by decide,
   c8_algebraic_roundtrip ⟨3, 5⟩ (by decide) (by decide) (by decide) (by decide)⟩

/-- C9: the attack scan uses the pawn's full pseudo-legal move set, so an
empty square directly in front of a pawn (one row in its movement
direction, same column) is reported as attacked by that pawn's color. -/
theorem c9_pawn_push_square_attacked (board : Board) (p : Position) (pc : PieceColor)
    (hp : isValidPosition p = true)
    (hpiece : cellAt board p = some ⟨PieceType.pawn, pc⟩)
    (hs : isValidPosition ⟨p.row + pawnDirection pc, p.col⟩ = true)
    (hempty : cellAt board ⟨p.row + pawnDirection pc, p.col⟩ = none) :
    isSquareAttacked board ⟨p.row + pawnDirection pc, p.col⟩ pc = true := by
  obtain ⟨h1, h2, h3, h4⟩ := (isValidPosition_iff p).mp hp
  have hcast : (⟨Int.ofNat p.row.toNat, Int.ofNat p.col.toNat⟩ : Position) = p := by
    obtain ⟨r, c⟩ := p
    simp only at h1 h3
    simp [Int.toNat_of_nonneg h1, Int.toNat_of_nonneg h3]
  unfold isSquareAttacked
  rw [List.any_eq_true]
  refine ⟨p.row.toNat, ?_, ?_⟩
  · rw [List.mem_range]
    omega
  rw [List.any_eq_true]
  refine ⟨p.col.toNat, ?_, ?_⟩
  · rw [List.mem_range]
    omega
  rw [hcast, hpiece]
  simp only [beq_self_eq_true, Bool.true_and]
  rw [List.any_eq_true]
  refine ⟨⟨p.row + pawnDirection pc, p.col⟩, ?_, by simp [positionsEqual]⟩
  unfold getPossibleMovesWithoutCheckValidation
  rw [hpiece]
  unfold getPawnMoves
  simp only [hs, hempty, Option.isNone_none, Bool.and_true, Bool.and_self, if_true]
  simp

theorem c9_pawn_push_square_attacked_witness :
    isValidPosition ⟨6, 4⟩ = true ∧
    cellAt createInitialBoard ⟨6, 4⟩ = some ⟨PieceType.pawn, PieceColor.white⟩ ∧
    isValidPosition ⟨(6 : Int) + pawnDirection PieceColor.white, 4⟩ = true ∧
    cellAt createInitialBoard ⟨(6 : Int) + pawnDirection PieceColor.white, 4⟩ = none ∧
    isSquareAttacked createInitialBoard
      ⟨(6 : Int) + pawnDirection PieceColor.white, 4⟩ PieceColor.white = true :=
  ⟨by decide, by rfl, by decide, by rfl,
   c9_pawn_push_square_attacked createInitialBoard ⟨6, 4⟩ PieceColor.white
     (by decide) (by rfl) (by decide) (by rfl)⟩

/-- C10: `makeMove` never consults the input state's `status` field — the
result is identical after overwriting `status` with anything — and a move is
accepted (result `isSome`) exactly when a piece of the current player sits
at `from` and `to` is among `getPossibleMoves`. -/
theorem c10_status_never_consulted (s : GameState) (st : GameStatus) (f t : Position) :
    makeMove { s with status := st } f t = makeMove s f t ∧
    ((makeMove s f t).isSome = true ↔
      (∃ piece, cellAt s.board f = some piece ∧
        (piece.color == s.currentPlayer) = true) ∧
      (getPossibleMoves s.board f s).any (fun m => positionsEqual m t) = true) := by
  constructor
  · rfl
  · cases hcell : cellAt s.board f with
    | none => simp [makeMove, hcell]
    | some piece =>
      by_cases hb : (piece.color != s.currentPlayer) = true
      · have hne : ¬ piece.color = s.currentPlayer := by
          simpa [bne_iff_ne] using hb
        simp [makeMove, hcell, hb, hne]
      · have hbeq : (piece.color == s.currentPlayer) = true := by
          simpa [bne] using hb
        by_cases hv : (getPossibleMoves s.board f s).any (fun m => positionsEqual m t) = true
        · simp [makeMove, hcell, hb, hbeq, hv]
          exact beq_iff_eq.mp hbeq
        · have hv2 : (getPossibleMoves s.board f s).any
              (fun m => positionsEqual m t) = false := by
            simpa using hv
          simp [makeMove, hcell, hb, hbeq, hv2]

theorem c10_status_never_consulted_witness :
    (makeMove { c10DrawState with status := GameStatus.checkmate } ⟨7, 4⟩ ⟨6, 4⟩ =
      makeMove c10DrawState ⟨7, 4⟩ ⟨6, 4⟩ ∧
     ((makeMove c10DrawState ⟨7, 4⟩ ⟨6, 4⟩).isSome = true ↔
       (∃ piece, cellAt c10DrawState.board ⟨7, 4⟩ = some piece ∧
         (piece.color == c10DrawState.currentPlayer) = true) ∧
       (getPossibleMoves c10DrawState.board ⟨7, 4⟩ c10DrawState).any
         (fun m => positionsEqual m ⟨6, 4⟩) = true)) ∧
    (makeMove c10DrawState ⟨7, 4⟩ ⟨6, 4⟩).isSome = true ∧
    c10DrawState.status = GameStatus.draw :=
  ⟨c10_status_never_consulted c10DrawState GameStatus.checkmate ⟨7, 4⟩ ⟨6, 4⟩,
   by rfl, by rfl⟩
